import Mathlib

/-!
# Verification of the react-native-scan highlight lifecycle engine

Shallow embedding of the highlight registry and overlay renderer from
`src/RenderOverlay.tsx` (the module holding `addHighlight`, `removeHighlight`,
`clearHighlights`, `updateHighlights` and the `RenderOverlay` component) and of
the measurement callback `handleLayout` from `src/index.tsx`.

Modelling choices:
- JS `number` values used for geometry and durations (floats in the host) are
  modelled as `ℚ`; `Date.now()` timestamps (integer milliseconds) as `ℤ`.
- The module-level mutable variables `highlightsState` and `listeners` become
  the fields of `RegistryState`. Listeners (the `setHighlights` dispatch
  functions collected in the `listeners` array) are identified by `ℕ` tokens;
  a listener invocation is recorded as a `(listener, delivered collection)`
  pair in the `notifications` field of a `StepResult`, in invocation order.
- `Animated.timing(opacity, {toValue: 0, duration: HIGHLIGHT_DURATION}).start(cb)`
  is recorded as a `FadeConfig` in `startedFades`; its interpolation semantics
  (owned by the host framework, not this repository) is modelled separately by
  `fadeValue`.
- The two `Date.now()` reads inside the synchronous body of `addHighlight`
  (lines 47 and 62 of the source) are modelled as the same instant `now`,
  passed as a parameter.
-/

namespace ReactNativeScan

/-- Source constant `const HIGHLIGHT_DURATION = 750;` — display duration in ms. -/
def HIGHLIGHT_DURATION : Int := 750

/-- The layout rectangle passed to `addHighlight` (`{ x, y, width, height }`). -/
structure Layout where
  x : ℚ
  y : ℚ
  width : ℚ
  height : ℚ
  deriving Repr, DecidableEq

/-- The `Highlight` interface of `RenderOverlay.tsx` (the `opacity` handle is
modelled separately via `FadeConfig`, see module docstring). -/
structure Highlight where
  id : String
  x : ℚ
  y : ℚ
  width : ℚ
  height : ℚ
  color : String
  timestamp : Int
  deriving Repr, DecidableEq

/-- The configuration of the fade-out animation started by `addHighlight`:
`new Animated.Value(1)` then `Animated.timing(opacity, {toValue: 0,
duration: HIGHLIGHT_DURATION}).start(() => removeHighlight(id))`. -/
structure FadeConfig where
  fromValue : ℚ
  toValue : ℚ
  duration : Int
  onCompleteRemoveId : String
  deriving Repr, DecidableEq

/-- The module-level mutable state of `RenderOverlay.tsx`:
`let highlightsState: Highlight[]` and `let listeners: ...[]`. -/
structure RegistryState where
  highlightsState : List Highlight
  listeners : List Nat
  deriving Repr, DecidableEq

/-- Observable outcome of one registry operation: the new module state, the
listener invocations it performed (in order, each with the collection value it
was called with), and the fade animations it started. -/
structure StepResult where
  state : RegistryState
  notifications : List (Nat × List Highlight)
  startedFades : List FadeConfig
  deriving Repr, DecidableEq

/-- Source function `updateHighlights`: `highlightsState = newHighlights;
listeners.forEach((listener) => listener(newHighlights));` — every listener is
invoked synchronously with the same new collection value. -/
def updateHighlights (newHighlights : List Highlight) (s : RegistryState) : StepResult :=
  { state := { s with highlightsState := newHighlights }
    notifications := s.listeners.map (fun l => (l, newHighlights))
    startedFades := [] }

/-- The `newHighlight` record built in `addHighlight`:
`{ id, ...layout, color, timestamp: Date.now(), opacity }`. -/
def mkHighlight (id : String) (layout : Layout) (color : String) (now : Int) : Highlight :=
  { id := id, x := layout.x, y := layout.y, width := layout.width, height := layout.height
    color := color, timestamp := now }

/-- Source function `addHighlight(id, layout, color)`: creates the highlight (timestamp `now`),
starts the fade animation (from 1 to 0 over `HIGHLIGHT_DURATION`, completion
calling `removeHighlight(id)`), filters out highlights with
`now - h.timestamp >= HIGHLIGHT_DURATION`, appends the new highlight, and calls
`updateHighlights`. -/
def addHighlight (id : String) (layout : Layout) (color : String) (now : Int)
    (s : RegistryState) : StepResult :=
  let fade : FadeConfig :=
    { fromValue := 1, toValue := 0, duration := HIGHLIGHT_DURATION, onCompleteRemoveId := id }
  let newHighlight := mkHighlight id layout color now
  let updatedHighlights :=
    s.highlightsState.filter (fun h => now - h.timestamp < HIGHLIGHT_DURATION) ++ [newHighlight]
  let r := updateHighlights updatedHighlights s
  { r with startedFades := [fade] }

/-- Source function `removeHighlight(id)`: filters out every highlight with this id and calls
`updateHighlights` only `if (updatedHighlights.length !== highlightsState.length)`.
The source binds the filtered array to `updatedHighlights` once; it is inlined
here (pure expression, same value at both occurrences). -/
def removeHighlight (id : String) (s : RegistryState) : StepResult :=
  if (s.highlightsState.filter (fun h => h.id ≠ id)).length ≠ s.highlightsState.length then
    updateHighlights (s.highlightsState.filter (fun h => h.id ≠ id)) s
  else
    { state := s, notifications := [], startedFades := [] }

/-- Source function `clearHighlights()`: `updateHighlights([])`. -/
def clearHighlights (s : RegistryState) : StepResult :=
  updateHighlights [] s

/-- The mount effect of `RenderOverlay`: `listeners.push(setHighlights);
setHighlights(highlightsState);` — the new listener is appended and immediately
invoked with the currently authoritative collection. -/
def subscribeOverlay (lid : Nat) (s : RegistryState) : StepResult :=
  { state := { s with listeners := s.listeners ++ [lid] }
    notifications := [(lid, s.highlightsState)]
    startedFades := [] }

/-- The unmount cleanup of `RenderOverlay`:
`listeners = listeners.filter((l) => l !== setHighlights);`. -/
def unsubscribeOverlay (lid : Nat) (s : RegistryState) : StepResult :=
  { state := { s with listeners := s.listeners.filter (fun l => l ≠ lid) }
    notifications := [], startedFades := [] }

/-- Firing of the fade-completion callback registered by `addHighlight`:
`.start(() => { removeHighlight(id); })`. -/
def completeFade (cfg : FadeConfig) (s : RegistryState) : StepResult :=
  removeHighlight cfg.onCompleteRemoveId s

/-- Modelled from the spec: the host framework's `Animated.timing` driver
(external to this repository) advances the animated value from `fromValue`
to `toValue` over `duration` milliseconds; modelled as linear interpolation
clamped at `toValue` from `duration` on. -/
def fadeValue (cfg : FadeConfig) (t : Int) : ℚ :=
  if cfg.duration ≤ t then cfg.toValue
  else cfg.fromValue + (cfg.toValue - cfg.fromValue) * (t : ℚ) / (cfg.duration : ℚ)

/-- The color classification in `handleLayout` of `src/index.tsx`: green by
default, red when `duration > renderTimeThresholdError`, else yellow when
`duration > renderTimeThresholdWarn`. -/
def classifyColor (duration warnThreshold errThreshold : ℚ) : String :=
  if duration > errThreshold then "rgba(255, 0, 0, 0.5)"
  else if duration > warnThreshold then "rgba(255, 255, 0, 0.5)"
  else "rgba(0, 255, 0, 0.5)"

/-- The `measure` callback inside `handleLayout` (`src/index.tsx` lines
168–188): `if (width <= 0 || height <= 0) return;` then classify the color and
call `addHighlight` with id `` `${componentName}-${start}` ``. Thresholds are
the resolved option values (defaults 16 and 50). -/
def handleLayoutMeasure (componentName : String) (start duration warnThreshold errThreshold : ℚ)
    (width height pageX pageY : ℚ) (now : Int) (s : RegistryState) : StepResult :=
  if width ≤ 0 ∨ height ≤ 0 then { state := s, notifications := [], startedFades := [] }
  else
    addHighlight (componentName ++ "-" ++ toString start)
      { x := pageX, y := pageY, width := width, height := height }
      (classifyColor duration warnThreshold errThreshold) now s

/-- One absolutely positioned `Animated.View` box produced by `RenderOverlay`
for a highlight (`key`, `left`, `top`, `width`, `height`, `borderColor`). -/
structure RenderedBox where
  key : String
  left : ℚ
  top : ℚ
  width : ℚ
  height : ℚ
  borderColor : String
  deriving Repr, DecidableEq

/-- The render body of `RenderOverlay`: `highlights.map((h) => <Animated.View
key={h.id} style={[..., {left: h.x, top: h.y, ...}]} />)` — boxes are emitted
in collection order, so a later list element paints on top. -/
def renderOverlay (hs : List Highlight) : List RenderedBox :=
  hs.map (fun h =>
    { key := h.id, left := h.x, top := h.y, width := h.width, height := h.height
      borderColor := h.color })

/-- The registry operations, for stating trace-level invariants. -/
inductive Op where
  | add (id : String) (layout : Layout) (color : String) (now : Int)
  | remove (id : String)
  | clear
  | sub (lid : Nat)
  | unsub (lid : Nat)
  deriving Repr, DecidableEq

/-- Dispatch of one operation on the registry state. -/
def step : Op → RegistryState → StepResult
  | Op.add i l c n, s => addHighlight i l c n s
  | Op.remove i, s => removeHighlight i s
  | Op.clear, s => clearHighlights s
  | Op.sub lid, s => subscribeOverlay lid s
  | Op.unsub lid, s => unsubscribeOverlay lid s

/-- Run a sequence of operations from a state, keeping only the final state. -/
def runOps (ops : List Op) (s : RegistryState) : RegistryState :=
  ops.foldl (fun st op => (step op st).state) s

/-- Run a sequence of late-firing fade-completion callbacks. -/
def runFadeCompletions (cfgs : List FadeConfig) (s : RegistryState) : RegistryState :=
  cfgs.foldl (fun st cfg => (completeFade cfg st).state) s

/-- The registry state at module load: both arrays empty. -/
def emptyState : RegistryState := { highlightsState := [], listeners := [] }

/-- The concrete rectangle of the spec's concrete scenario
(`{x:10, y:20, width:100, height:40}`). -/
def sampleLayout : Layout := { x := 10, y := 20, width := 100, height := 40 }

/-- A registry state holding one highlight of id `"a"` and one listener. -/
def oneHighlightState : RegistryState :=
  { highlightsState := [mkHighlight "a" sampleLayout "green" 0], listeners := [0] }

/-- A registry state holding one listener and no highlights. -/
def oneListenerState : RegistryState := { highlightsState := [], listeners := [0] }

/-- A registry state holding two listeners (tokens 3 and 9) and no highlights. -/
def twoListenerState : RegistryState := { highlightsState := [], listeners := [3, 9] }

/-- A registry state holding two active highlights that share the id `"dup"`,
next to one highlight of id `"keep"`, as produced by duplicate add calls. -/
def keepDupState : RegistryState :=
  { highlightsState :=
      [mkHighlight "dup" sampleLayout "green" 0, mkHighlight "keep" sampleLayout "green" 5,
       mkHighlight "dup" sampleLayout "green" 10]
    listeners := [0] }

/-- The registry state reached from the empty state by two immediate adds
(the spec's concrete scenario: `r1` then `r2`). -/
def twoHighlightsState : RegistryState :=
  (addHighlight "r2" sampleLayout "red" 0
    (addHighlight "r1" sampleLayout "yellow" 0 oneListenerState).state).state

/- ## Helper lemmas -/

/-- Removal leaves a state's collection a sublist of what it was. -/
lemma removeHighlight_sublist (id : String) (s : RegistryState) :
    (removeHighlight id s).state.highlightsState.Sublist s.highlightsState := by
  unfold removeHighlight
  split
  · exact List.filter_sublist _
  · exact List.Sublist.refl _

/-- When no active highlight carries the id, `removeHighlight` is a silent
no-op: same state, no listener invocation. -/
lemma removeHighlight_noop_of_no_match (id : String) (s : RegistryState)
    (h : ∀ x ∈ s.highlightsState, x.id ≠ id) :
    removeHighlight id s = { state := s, notifications := [], startedFades := [] } := by
  unfold removeHighlight
  have hf : s.highlightsState.filter (fun x => x.id ≠ id) = s.highlightsState := by
    apply List.filter_eq_self.mpr
    intro a ha
    simpa using h a ha
  rw [hf]
  simp

/-- Every highlight surviving a `removeHighlight id` call has an id other
than `id` (in the no-change branch this is because nothing matched). -/
lemma removeHighlight_members (id : String) (s : RegistryState) :
    ∀ h ∈ (removeHighlight id s).state.highlightsState, h.id ≠ id := by
  intro h hm
  unfold removeHighlight at hm
  by_cases hlen :
      (s.highlightsState.filter (fun x => x.id ≠ id)).length ≠ s.highlightsState.length
  · rw [if_pos hlen] at hm
    simp only [updateHighlights, List.mem_filter, decide_eq_true_eq] at hm
    exact hm.2
  · rw [if_neg hlen] at hm
    push_neg at hlen
    have hself : s.highlightsState.filter (fun x => x.id ≠ id) = s.highlightsState :=
      (List.filter_sublist _).eq_of_length hlen
    have := List.filter_eq_self.mp hself h hm
    simpa using this

/-- Every collection a `removeHighlight` call delivers to a listener is the
collection it installed as the new state. -/
lemma removeHighlight_notified_eq (id : String) (s : RegistryState) :
    ∀ p ∈ (removeHighlight id s).notifications,
      p.2 = (removeHighlight id s).state.highlightsState := by
  unfold removeHighlight
  split
  · intro p hp
    simp only [updateHighlights, List.mem_map] at hp
    obtain ⟨l, _, rfl⟩ := hp
    rfl
  · intro p hp
    simp at hp

/-- A state with an empty collection is untouched by `removeHighlight`. -/
lemma removeHighlight_state_of_empty (id : String) (s : RegistryState)
    (h : s.highlightsState = []) : (removeHighlight id s).state = s := by
  unfold removeHighlight
  rw [h]
  simp

/-- A run of fade-completion callbacks keeps an empty collection empty. -/
lemma runFadeCompletions_empty (cfgs : List FadeConfig) (s : RegistryState)
    (h : s.highlightsState = []) : (runFadeCompletions cfgs s).highlightsState = [] := by
  induction cfgs generalizing s with
  | nil => exact h
  | cons c cs ih =>
      have h1 : (completeFade c s).state = s := removeHighlight_state_of_empty _ s h
      show (runFadeCompletions cs (completeFade c s).state).highlightsState = []
      rw [h1]
      exact ih s h

/-- The fade driver started by `addHighlight` (from 1 to 0 over
`HIGHLIGHT_DURATION`) is non-increasing in elapsed time. -/
lemma fadeValue_mono (id : String) (t1 t2 : Int) (h0 : 0 ≤ t1) (h12 : t1 ≤ t2) :
    fadeValue ⟨1, 0, HIGHLIGHT_DURATION, id⟩ t2 ≤ fadeValue ⟨1, 0, HIGHLIGHT_DURATION, id⟩ t1 := by
  have ht0 : (0 : ℚ) ≤ (t1 : ℚ) := by exact_mod_cast h0
  have ht12 : (t1 : ℚ) ≤ (t2 : ℚ) := by exact_mod_cast h12
  simp only [fadeValue, HIGHLIGHT_DURATION]
  split_ifs with h2 h1 h1
  · exact le_rfl
  · have h1' : (t1 : ℚ) < 750 := by exact_mod_cast lt_of_not_le h1
    have hdiv : (t1 : ℚ) / 750 < 1 := by
      rw [div_lt_one (by norm_num)]
      exact h1'
    nlinarith [hdiv]
  · exact absurd (le_trans h1 h12) h2
  · have h2' : (t2 : ℚ) < 750 := by exact_mod_cast lt_of_not_le h2
    have hdiv : (t1 : ℚ) / 750 ≤ (t2 : ℚ) / 750 := by
      apply div_le_div_of_nonneg_right ht12
      norm_num
    nlinarith [hdiv]

/- ## Claim theorems -/

/-- C1: every `addHighlight(id, layout, color)` call replaces the collection
with the previous collection pruned of every highlight of age
`now - createdAt ≥ HIGHLIGHT_DURATION`, followed by the new highlight
(`createdAt = now`) appended at the end, and synchronously notifies every
subscribed listener with that same new collection value; in particular a
highlight added at t = 0 and never removed is absent from the collection
produced by an add at t = 800. -/
theorem addHighlight_prunes_appends_notifies (id : String) (layout : Layout)
    (color : String) (now : Int) (s : RegistryState) :
    (addHighlight id layout color now s).state.highlightsState =
      s.highlightsState.filter (fun h => now - h.timestamp < HIGHLIGHT_DURATION)
        ++ [mkHighlight id layout color now] ∧
    (addHighlight id layout color now s).notifications =
      s.listeners.map
        (fun l => (l, (addHighlight id layout color now s).state.highlightsState)) ∧
    (addHighlight id layout color now s).state.listeners = s.listeners ∧
    mkHighlight "A" sampleLayout "green" 0 ∉
      (addHighlight "B" sampleLayout "red" 800
        { highlightsState := [mkHighlight "A" sampleLayout "green" 0]
          listeners := [0] }).state.highlightsState :=
  ⟨rfl, rfl, rfl, by decide⟩

/-- C3: an add whose measured rectangle has non-positive area
(`width <= 0 || height <= 0`, the guard in `handleLayout` of `src/index.tsx`)
is silently ignored: no highlight is created, no fade is started, the
collection is unchanged, no listener is invoked (and, the embedding being a
total function, no error is raised). -/
theorem handleLayout_nonpositive_area_ignored (componentName : String)
    (start duration warnThreshold errThreshold width height pageX pageY : ℚ)
    (now : Int) (s : RegistryState) (h : width ≤ 0 ∨ height ≤ 0) :
    handleLayoutMeasure componentName start duration warnThreshold errThreshold
      width height pageX pageY now s =
      { state := s, notifications := [], startedFades := [] } := by
  unfold handleLayoutMeasure
  rw [if_pos h]

/-- Witness for C3 at a concrete zero-width measurement. -/
theorem handleLayout_nonpositive_area_ignored_witness :
    ((0 : ℚ) ≤ 0 ∨ (40 : ℚ) ≤ 0) ∧
    handleLayoutMeasure "MyComponent" 5 20 16 50 0 40 3 4 1000 emptyState =
      { state := emptyState, notifications := [], startedFades := [] } :=
  ⟨Or.inl le_rfl,
   handleLayout_nonpositive_area_ignored "MyComponent" 5 20 16 50 0 40 3 4 1000
     emptyState (Or.inl le_rfl)⟩

/-- C6: `clearHighlights()` replaces the authoritative collection with the
empty collection and unconditionally notifies every subscriber — also when the
collection was already empty, as the second conjunct shows on an already-empty
registry with one listener. -/
theorem clearHighlights_empties_and_notifies (s : RegistryState) :
    clearHighlights s =
      { state := { s with highlightsState := [] }
        notifications := s.listeners.map (fun l => (l, ([] : List Highlight)))
        startedFades := [] } ∧
    clearHighlights { highlightsState := [], listeners := [7] } =
      { state := { highlightsState := [], listeners := [7] }
        notifications := [(7, [])], startedFades := [] } :=
  ⟨rfl, rfl⟩

/-- C9: a late-firing fade-completion callback only ever removes by id — its
surviving collection is a sublist of the previous one, so it never re-inserts —
and once `clearHighlights` has run, the collection stays empty under every
sequence of late-firing fade callbacks. -/
theorem late_fade_callbacks_cannot_resurrect :
    (∀ cfg s, (completeFade cfg s).state.highlightsState.Sublist s.highlightsState) ∧
    (∀ s cfgs, (runFadeCompletions cfgs (clearHighlights s).state).highlightsState = []) :=
  ⟨fun cfg s => removeHighlight_sublist cfg.onCompleteRemoveId s,
   fun _ cfgs => runFadeCompletions_empty cfgs _ rfl⟩

/-- C10: `removeHighlight id` removes, in one step, every active highlight
whose id equals `id` (no survivor carries the id), keeps every non-matching
highlight, and on a collection holding two highlights sharing the id `"dup"`
a single call deletes both. -/
theorem removeHighlight_removes_all_matching (id : String) (s : RegistryState) :
    (∀ h ∈ (removeHighlight id s).state.highlightsState, h.id ≠ id) ∧
    (∀ h ∈ s.highlightsState, h.id ≠ id → h ∈ (removeHighlight id s).state.highlightsState) ∧
    (removeHighlight "dup" keepDupState).state.highlightsState =
      [mkHighlight "keep" sampleLayout "green" 5] := by
  refine ⟨removeHighlight_members id s, ?_, by decide⟩
  intro h hm hne
  unfold removeHighlight
  split
  · simp only [updateHighlights, List.mem_filter, decide_eq_true_eq]
    exact ⟨hm, hne⟩
  · exact hm

/-- Witness for C10: removing `"dup"` from `keepDupState` keeps the `"keep"`
highlight, whose id differs from `"dup"`. -/
theorem removeHighlight_removes_all_matching_witness :
    (mkHighlight "keep" sampleLayout "green" 5).id ≠ "dup" ∧
    mkHighlight "keep" sampleLayout "green" 5 ∈
      (removeHighlight "dup" keepDupState).state.highlightsState :=
  ⟨(removeHighlight_removes_all_matching "dup" keepDupState).1 _ (by decide),
   (removeHighlight_removes_all_matching "dup" keepDupState).2.1 _ (by decide) (by decide)⟩

/-- C4: `removeHighlight` is idempotent: when no active highlight matches the
id (a never-added id, or a second remove of the same id — third conjunct) the
collection is unchanged and no listener is invoked; listeners are invoked only
when the collection actually changed (second conjunct). -/
theorem removeHighlight_idempotent (id : String) (s : RegistryState) :
    ((∀ x ∈ s.highlightsState, x.id ≠ id) →
      removeHighlight id s = { state := s, notifications := [], startedFades := [] }) ∧
    ((removeHighlight id s).notifications ≠ [] →
      (removeHighlight id s).state.highlightsState ≠ s.highlightsState) ∧
    removeHighlight id (removeHighlight id s).state =
      { state := (removeHighlight id s).state, notifications := [], startedFades := [] } := by
  refine ⟨removeHighlight_noop_of_no_match id s, ?_,
    removeHighlight_noop_of_no_match id _ (removeHighlight_members id s)⟩
  intro hne
  unfold removeHighlight at hne ⊢
  by_cases hlen :
      (s.highlightsState.filter (fun x => x.id ≠ id)).length ≠ s.highlightsState.length
  · rw [if_pos hlen]
    intro heq
    exact hlen (congrArg List.length heq)
  · rw [if_neg hlen] at hne
    simp at hne

/-- Witness for C4: removing the never-added id `"b"` from a state holding
only `"a"` is a silent no-op; removing `"a"` changes the collection and a
second removal of `"a"` is again a silent no-op. -/
theorem removeHighlight_idempotent_witness :
    removeHighlight "b" oneHighlightState =
      { state := oneHighlightState, notifications := [], startedFades := [] } ∧
    (removeHighlight "a" oneHighlightState).state.highlightsState ≠
      oneHighlightState.highlightsState ∧
    removeHighlight "a" (removeHighlight "a" oneHighlightState).state =
      { state := (removeHighlight "a" oneHighlightState).state
        notifications := [], startedFades := [] } :=
  ⟨(removeHighlight_idempotent "b" oneHighlightState).1 (by decide),
   (removeHighlight_idempotent "a" oneHighlightState).2.1 (by decide),
   (removeHighlight_idempotent "a" oneHighlightState).2.2⟩

/-- C5: every operation preserves insertion order (oldest first):
`addHighlight` appends the new highlight at the end of an order-preserving
selection (a sublist) of the previous collection, `removeHighlight` keeps the
surviving highlights in their relative order (a sublist), and the overlay
renders highlights added in order A, B, C as boxes keyed A, B, C in that order,
so C paints over B over A. -/
theorem insertion_order_preserved :
    (∀ id layout color now s, ∃ kept,
      (addHighlight id layout color now s).state.highlightsState =
        kept ++ [mkHighlight id layout color now] ∧
      kept.Sublist s.highlightsState) ∧
    (∀ id s, (removeHighlight id s).state.highlightsState.Sublist s.highlightsState) ∧
    (renderOverlay (runOps
        [Op.add "A" sampleLayout "green" 0, Op.add "B" sampleLayout "green" 0,
         Op.add "C" sampleLayout "green" 0] emptyState).highlightsState).map
      RenderedBox.key = ["A", "B", "C"] :=
  ⟨fun _ _ _ _ s => ⟨_, rfl, List.filter_sublist s.highlightsState⟩,
   fun id s => removeHighlight_sublist id s,
   by decide⟩

/-- C7: the overlay's subscription registers the listener and immediately
invokes it once with the currently authoritative collection (a subscriber
joining `twoHighlightsState` immediately receives both highlights, last
conjunct); after subscribing, every change notifies it; the returned
unsubscribe deregisters exactly that listener, keeps every other listener
registered, and a second unsubscribe is a safe no-op. -/
theorem subscribe_unsubscribe_contract :
    (∀ lid s, (subscribeOverlay lid s).notifications = [(lid, s.highlightsState)] ∧
      (subscribeOverlay lid s).state.listeners = s.listeners ++ [lid] ∧
      (subscribeOverlay lid s).state.highlightsState = s.highlightsState) ∧
    (∀ lid id layout color now s, lid ∈ s.listeners →
      (lid, (addHighlight id layout color now s).state.highlightsState) ∈
        (addHighlight id layout color now s).notifications) ∧
    (∀ lid s, lid ∉ (unsubscribeOverlay lid s).state.listeners) ∧
    (∀ lid l s, l ∈ s.listeners → l ≠ lid →
      l ∈ (unsubscribeOverlay lid s).state.listeners) ∧
    (∀ lid s, unsubscribeOverlay lid (unsubscribeOverlay lid s).state =
      { state := (unsubscribeOverlay lid s).state
        notifications := [], startedFades := [] }) ∧
    (∀ lid s, (unsubscribeOverlay lid s).state.highlightsState = s.highlightsState) ∧
    (subscribeOverlay 5 twoHighlightsState).notifications =
      [(5, [mkHighlight "r1" sampleLayout "yellow" 0, mkHighlight "r2" sampleLayout "red" 0])] := by
  refine ⟨fun lid s => ⟨rfl, rfl, rfl⟩, ?_, ?_, ?_, ?_, fun lid s => rfl, by decide⟩
  · intro lid id layout color now s hm
    exact List.mem_map.mpr ⟨lid, hm, rfl⟩
  · intro lid s
    simp [unsubscribeOverlay, List.mem_filter]
  · intro lid l s hm hne
    simp only [unsubscribeOverlay, List.mem_filter, decide_eq_true_eq]
    exact ⟨hm, hne⟩
  · intro lid s
    have hf : ((s.listeners.filter (fun l => l ≠ lid)).filter (fun l => l ≠ lid)) =
        s.listeners.filter (fun l => l ≠ lid) := by
      apply List.filter_eq_self.mpr
      intro a ha
      exact (List.mem_filter.mp ha).2
    unfold unsubscribeOverlay
    rw [hf]

/-- Witness for C7: a registered listener receives an add notification, and a
listener distinct from an unsubscribed one stays registered. -/
theorem subscribe_unsubscribe_contract_witness :
    (0, (addHighlight "x" sampleLayout "green" 0 oneListenerState).state.highlightsState) ∈
      (addHighlight "x" sampleLayout "green" 0 oneListenerState).notifications ∧
    3 ∈ (unsubscribeOverlay 9 twoListenerState).state.listeners :=
  ⟨subscribe_unsubscribe_contract.2.1 0 "x" sampleLayout "green" 0 oneListenerState (by decide),
   subscribe_unsubscribe_contract.2.2.2.1 9 3 twoListenerState (by decide) (by decide)⟩

/-- C8: every `addHighlight` call starts exactly one fade driver, whose value
starts at exactly 1 (`new Animated.Value(1)`), is configured to advance toward
0 over exactly `HIGHLIGHT_DURATION` = 750 ms, reaches 0 at (and stays 0 after)
that duration while never increasing, and whose completion callback invokes
removal with that highlight's id. -/
theorem addHighlight_fade_contract (id : String) (layout : Layout) (color : String)
    (now : Int) (s : RegistryState) :
    (addHighlight id layout color now s).startedFades ≠ [] ∧
    ∀ cfg ∈ (addHighlight id layout color now s).startedFades,
      cfg.fromValue = 1 ∧ cfg.toValue = 0 ∧ cfg.duration = HIGHLIGHT_DURATION ∧
      cfg.onCompleteRemoveId = id ∧
      fadeValue cfg 0 = 1 ∧
      (∀ t, cfg.duration ≤ t → fadeValue cfg t = 0) ∧
      (∀ t1 t2 : Int, 0 ≤ t1 → t1 ≤ t2 → fadeValue cfg t2 ≤ fadeValue cfg t1) ∧
      (∀ s', completeFade cfg s' = removeHighlight id s') := by
  constructor
  · intro h
    exact List.cons_ne_nil _ _ h
  · intro cfg hm
    have hc : cfg = ⟨1, 0, HIGHLIGHT_DURATION, id⟩ := List.mem_singleton.mp hm
    subst hc
    refine ⟨rfl, rfl, rfl, rfl, ?_, ?_, fadeValue_mono id, fun s' => rfl⟩
    · norm_num [fadeValue, HIGHLIGHT_DURATION]
    · intro t ht
      unfold fadeValue
      rw [if_pos ht]

/-- Witness for C8: evaluating the fade driver started for id `"w"` at
concrete instants — full opacity at t = 0, zero at t = 750, and
non-increasing between t = 200 and t = 400. -/
theorem addHighlight_fade_contract_witness :
    fadeValue ⟨1, 0, HIGHLIGHT_DURATION, "w"⟩ 0 = 1 ∧
    fadeValue ⟨1, 0, HIGHLIGHT_DURATION, "w"⟩ 750 = 0 ∧
    fadeValue ⟨1, 0, HIGHLIGHT_DURATION, "w"⟩ 400 ≤ fadeValue ⟨1, 0, HIGHLIGHT_DURATION, "w"⟩ 200 :=
  have h := (addHighlight_fade_contract "w" sampleLayout "green" 0 emptyState).2
    ⟨1, 0, HIGHLIGHT_DURATION, "w"⟩ (by decide)
  ⟨h.2.2.2.2.1, h.2.2.2.2.2.1 750 (by decide),
   h.2.2.2.2.2.2.1 200 400 (by decide) (by decide)⟩

/-- C2 counterexample: two `addHighlight` calls sharing the id `"a"` within
one display window yield two currently active highlights with the same id, and
that collection — duplicate ids included — is exactly what the subscribed
listener is notified with; `addHighlight` never deduplicates by id. -/
theorem duplicate_active_ids_cex :
    (addHighlight "a" sampleLayout "green" 100
        (addHighlight "a" sampleLayout "green" 100 oneListenerState).state).notifications =
      [(0, [mkHighlight "a" sampleLayout "green" 100, mkHighlight "a" sampleLayout "green" 100])] ∧
    ¬ (([mkHighlight "a" sampleLayout "green" 100,
         mkHighlight "a" sampleLayout "green" 100].map Highlight.id).Nodup) := by
  decide

/-- C2 amended: provided every add call uses an id distinct from the ids of
all currently active highlights, each registry operation preserves pairwise
distinctness of active ids, and every collection it delivers to subscribers
has pairwise-distinct ids (a removed highlight's id may be reused later, since
freshness is only required against the currently active collection). -/
theorem step_preserves_distinct_active_ids (op : Op) (s : RegistryState)
    (hnd : (s.highlightsState.map Highlight.id).Nodup)
    (hfresh : ∀ i l c n, op = Op.add i l c n → ∀ h ∈ s.highlightsState, h.id ≠ i) :
    ((step op s).state.highlightsState.map Highlight.id).Nodup ∧
    ∀ p ∈ (step op s).notifications, ((p.2.map Highlight.id)).Nodup := by
  cases op with
  | add i l c n =>
      have hfresh' : ∀ h ∈ s.highlightsState, h.id ≠ i := hfresh i l c n rfl
      have hstate :
          (((addHighlight i l c n s).state.highlightsState).map Highlight.id).Nodup := by
        show (((s.highlightsState.filter
            (fun h => n - h.timestamp < HIGHLIGHT_DURATION)) ++ [mkHighlight i l c n]).map
              Highlight.id).Nodup
        rw [List.map_append]
        apply List.Nodup.append
        · exact hnd.sublist (List.Sublist.map _ (List.filter_sublist _))
        · simp
        · intro a ha hb
          simp only [List.map_cons, List.map_nil, List.mem_singleton] at hb
          obtain ⟨x, hx, rfl⟩ := List.mem_map.mp ha
          exact hfresh' x (List.mem_of_mem_filter hx) hb
      refine ⟨hstate, ?_⟩
      intro p hp
      obtain ⟨l', _, rfl⟩ := List.mem_map.mp hp
      exact hstate
  | remove i =>
      have hstate : (((removeHighlight i s).state.highlightsState).map Highlight.id).Nodup :=
        hnd.sublist (List.Sublist.map _ (removeHighlight_sublist i s))
      refine ⟨hstate, ?_⟩
      intro p hp
      rw [removeHighlight_notified_eq i s p hp]
      exact hstate
  | clear =>
      refine ⟨by simp [step, clearHighlights, updateHighlights], ?_⟩
      intro p hp
      obtain ⟨l', _, rfl⟩ := List.mem_map.mp hp
      simp
  | sub lid =>
      refine ⟨hnd, ?_⟩
      intro p hp
      rw [List.mem_singleton.mp hp]
      exact hnd
  | unsub lid =>
      exact ⟨hnd, fun p hp => absurd hp (List.not_mem_nil p)⟩

/-- Witness for C2 amended: adding the fresh id `"b"` to a state whose only
active highlight has id `"a"` keeps active ids distinct, and the collection
delivered to listener 0 has distinct ids. -/
theorem step_preserves_distinct_active_ids_witness :
    (((step (Op.add "b" sampleLayout "red" 0) oneHighlightState).state.highlightsState.map
        Highlight.id).Nodup) ∧
    ((((0 : Nat), [mkHighlight "a" sampleLayout "green" 0,
        mkHighlight "b" sampleLayout "red" 0]).2.map Highlight.id).Nodup) :=
  have h := step_preserves_distinct_active_ids (Op.add "b" sampleLayout "red" 0)
    oneHighlightState (by decide)
    (by
      intro i l c n he x hm
      cases he
      have hx : x = mkHighlight "a" sampleLayout "green" 0 := by
        simpa [oneHighlightState] using hm
      subst hx
      decide)
  ⟨h.1, h.2 (0, [mkHighlight "a" sampleLayout "green" 0,
      mkHighlight "b" sampleLayout "red" 0]) (by decide)⟩

end ReactNativeScan
